import Mathlib

/-!
Shallow embedding of the xdotool fakemap command (src/cmd_fakemap.c).

The embedding translates the pure logic of cmd_fakemap into Lean:
the preferred-binding index construction (map_by_char), the grab-set
computation, the per-event translation loop body, the startup control
flow as an abstract step trace, the exit-time layout restoration, and
the command-line front end.  Machine integers are modelled as Nat with
masks applied exactly as the C source applies them (all state values
taken from X11 are 32-bit unsigned integers, hence the 32-bit complement
mask used to model the bitwise-and-not in the event matcher).
-/

namespace Fakemap

/-- X11 ShiftMask constant (bit 0). -/
def ShiftMask : Nat := 1

/-- X11 ControlMask constant (bit 2). -/
def ControlMask : Nat := 4

/-- X11 Mod5Mask constant (bit 7, value 0x80). -/
def Mod5Mask : Nat := 128

/-- Source: `static const int PRESERVED_MODS = ControlMask;` -/
def PRESERVED_MODS : Nat := ControlMask

/-- The 32-bit complement of PRESERVED_MODS: in the source,
`key.state &~ PRESERVED_MODS` on an unsigned 32-bit state equals
`state &&& 0xFFFFFFFB`. -/
def NOT_PRESERVED_MASK : Nat := 4294967291

/-- One row of the keyboard mapping table (charcodemap_t in xdotool):
the character produced, the physical key code, the keysym, the group,
and the modifier mask required to produce the character. -/
structure charcodemap where
  key : Nat
  code : Nat
  symbol : Nat
  group : Nat
  modmask : Nat
  deriving DecidableEq, Repr

/-- Model of the C `iscntrl` classification used by cmd_fakemap after
`setlocale(LC_CTYPE, "")`: control characters are 0..31 and 127
(the portable C/ASCII classification; the source only ever feeds it
printable or control code points). -/
def iscntrl (c : Nat) : Bool := c < 32 || c == 127

/-- One step of the map_by_char construction loop (src lines 141-157):
skip control characters; if the character already has an entry, keep the
entry when it has a strictly smaller symbol, otherwise keep it when it
has a strictly smaller modifier mask, otherwise replace it; absent
entries are always set. -/
def updateIndex (idx : Nat → Option charcodemap) (m : charcodemap) :
    Nat → Option charcodemap :=
  if iscntrl m.key then idx
  else
    match idx m.key with
    | some curmap =>
      if iscntrl m.key then idx
      else if curmap.symbol < m.symbol then idx
      else if curmap.modmask < m.modmask then idx
      else fun k => if k = m.key then some m else idx k
    | none => fun k => if k = m.key then some m else idx k

/-- The preferred-binding index `map_by_char` built by folding
updateIndex over the new-layout charcode table, starting from the
all-absent (calloc-zeroed) index. -/
def map_by_char (charcodes : List charcodemap) : Nat → Option charcodemap :=
  charcodes.foldl updateIndex (fun _ => none)

/-- The grab set computed by the loop at src lines 164-192: for each row
of the original table, look up the preferred binding for the rows
character; skip when absent or when both the code and the modmask are
unchanged; otherwise request grabs for the ORIGINAL rows
(code, modmask) pair and for the same pair with ControlMask added. -/
def grab_pairs (orig_charcodes : List charcodemap)
    (idx : Nat → Option charcodemap) : List (Nat × Nat) :=
  orig_charcodes.flatMap (fun chr =>
    match idx chr.key with
    | none => []
    | some map =>
      if map.code = chr.code ∧ map.modmask = chr.modmask then []
      else [(chr.code, chr.modmask), (chr.code, chr.modmask ||| ControlMask)])

/-- Key event direction: KeyPress or KeyRelease. -/
inductive EvType where
  | press
  | release
  deriving DecidableEq, Repr

/-- An observed X key event, restricted to the fields the translation
loop reads: type, keycode, state, and the send_event flag. -/
structure KeyEventIn where
  typ : EvType
  keycode : Nat
  state : Nat
  send_event : Bool
  deriving DecidableEq, Repr

/-- A synthesized key event as passed to XSendEvent: direction, keycode,
state, and destination window. -/
structure SentEvent where
  typ : EvType
  keycode : Nat
  state : Nat
  window : Nat
  deriving DecidableEq, Repr

/-- Environment facts the loop queries from the X server: the keycode
bound to XK_Shift_L, the keycode bound to XK_ISO_Level3_Shift, and the
currently focused window. -/
structure Env where
  shiftKeycode : Nat
  level3Keycode : Nat
  focuswin : Nat

/-- An observable action of one loop iteration: an XSendEvent call or
the printf of the unknown-key diagnostic (identified by the character
code it prints). -/
inductive Action where
  | sendEvent (e : SentEvent)
  | printUnknown (key : Nat)
  deriving DecidableEq, Repr

/-- The row-match test of the translation loop (src lines 226-228):
the rows code equals the observed keycode and the observed state with
the preserved (Control) bit cleared equals the rows modmask. -/
def matchesEvent (key : KeyEventIn) (chr : charcodemap) : Bool :=
  chr.code == key.keycode && ((key.state &&& NOT_PRESERVED_MASK) == chr.modmask)

/-- The C expression `!pressed` as the 0/1 integer the source xors with. -/
def notPressed (key : KeyEventIn) : Nat :=
  if key.typ == EvType.press then 0 else 1

/-- The shift / level3 reconciliation events (src lines 252-271): when
the observed Shift bit differs from the targets Shift bit, send a
Shift_L press or release (direction = (modmask AND ShiftMask) XOR
(NOT pressed), nonzero meaning press) with state 0; then, when bit 0x80
of the observed state differs from the targets, the same with
Mod5Mask and the ISO_Level3_Shift keycode.  Both go to the focused
window. -/
def shift_events (env : Env) (map : charcodemap) (key : KeyEventIn) :
    List SentEvent :=
  (if (key.state &&& ShiftMask) != (map.modmask &&& ShiftMask) then
    [{ typ := if ((map.modmask &&& ShiftMask) ^^^ notPressed key) != 0
              then EvType.press else EvType.release,
       keycode := env.shiftKeycode, state := 0, window := env.focuswin }]
   else []) ++
  (if (key.state &&& 128) != (map.modmask &&& 128) then
    [{ typ := if ((map.modmask &&& Mod5Mask) ^^^ notPressed key) != 0
              then EvType.press else EvType.release,
       keycode := env.level3Keycode, state := 0, window := env.focuswin }]
   else [])

/-- The primary synthesized event (src lines 273-275): keycode rewritten
to the targets code, state rewritten to the targets modmask or-ed with
the preserved bits of the observed state, direction and destination
unchanged (focused window). -/
def primaryEvent (env : Env) (map : charcodemap) (key : KeyEventIn) :
    SentEvent :=
  { typ := key.typ, keycode := map.code,
    state := map.modmask ||| (key.state &&& PRESERVED_MODS),
    window := env.focuswin }

/-- All actions emitted for one successfully translated row: the
reconciliation events followed by the primary event. -/
def rowActions (env : Env) (map : charcodemap) (key : KeyEventIn) :
    List Action :=
  (shift_events env map key).map Action.sendEvent ++
    [Action.sendEvent (primaryEvent env map key)]

/-- The translation for-loop over the original charcode table
(src lines 224-277): skip rows that do not match; on a matching row
whose character has no preferred binding, print the unknown-key
diagnostic and continue scanning; on a matching row with a binding,
emit the reconciliation and primary events and break. -/
def translate_event (env : Env) (idx : Nat → Option charcodemap)
    (key : KeyEventIn) : List charcodemap → List Action
  | [] => []
  | chr :: rest =>
    if matchesEvent key chr then
      match idx chr.key with
      | none => Action.printUnknown chr.key :: translate_event env idx key rest
      | some map => rowActions env map key
    else translate_event env idx key rest

/-- One full key-event iteration of the while loop: self-generated
events (send_event set) are dropped before translation
(src line 221). -/
def handle_key_event (env : Env) (idx : Nat → Option charcodemap)
    (orig_charcodes : List charcodemap) (key : KeyEventIn) : List Action :=
  if key.send_event then [] else translate_event env idx key orig_charcodes

/-- The first row of the table that matches the observed event and whose
character has a preferred binding; used to characterize which row the
translation loop actually translates. -/
def firstResolvable (idx : Nat → Option charcodemap) (key : KeyEventIn) :
    List charcodemap → Option charcodemap
  | [] => none
  | chr :: rest =>
    if matchesEvent key chr then
      match idx chr.key with
      | none => firstResolvable idx key rest
      | some map => some map
    else firstResolvable idx key rest

/-- Exit-time layout restoration (src lines 314-322): a no-op when no
layout was captured, otherwise exactly one child process
execlp("setxkbmap", "-layout", orig_layout) — the invocation is modelled
as (file, argv) where argv starts at the arg0 slot, so the tool sees the
captured layout as its only argument after argv 0. -/
def restore_layout : Option String → List (String × List String)
  | none => []
  | some l => [("setxkbmap", ["-layout", l])]

/-- Abstract steps of the startup control flow of cmd_fakemap, in the
order the source performs them. -/
inductive Step where
  | readLayoutNames
  | installExitHooks
  | spawnTool (file : String) (argv : List String)
  | refreshKeymap
  | captureOrigCharcodes
  | buildPreferredIndex
  | installGrabs
  | eventLoop
  deriving DecidableEq, Repr

/-- The startup trace of cmd_fakemap (src lines 75-196): read the
original layout names, install the exit hook and signal handlers, run
setxkbmap -variant nodeadkeys, refresh the keymap, copy the charcode
table as orig_charcodes, run setxkbmap -layout us -variant basic, run
xmodmap with the three edit directives, refresh the keymap again, build
map_by_char, install the grabs, then enter the event loop. -/
def startup_trace : List Step :=
  [Step.readLayoutNames,
   Step.installExitHooks,
   Step.spawnTool "setxkbmap" ["setxkbmap", "-variant", "nodeadkeys"],
   Step.refreshKeymap,
   Step.captureOrigCharcodes,
   Step.spawnTool "setxkbmap" ["-layout", "us", "-variant", "basic"],
   Step.spawnTool "xmodmap"
     ["xmodmap", "-e", "remove mod1 = Alt_R",
      "-e", "keysym Alt_R = ISO_Level3_Shift",
      "-e", "add mod5 = ISO_Level3_Shift"],
   Step.refreshKeymap,
   Step.buildPreferredIndex,
   Step.installGrabs,
   Step.eventLoop]

/-- The child processes spawned by the startup pipeline, extracted from
the startup trace. -/
def startup_spawns : List (String × List String) :=
  startup_trace.filterMap (fun s =>
    match s with
    | Step.spawnTool f a => some (f, a)
    | _ => none)

/-- A command-line token as classified by the getopt loop: the help
option, the window option with its argument, or an unrecognized
option. -/
inductive OptTok where
  | help
  | window (arg : String)
  | unknown (s : String)
  deriving DecidableEq, Repr

/-- Result of the front end: an early return with exit code, stdout
lines and stderr lines, or control handed to the pipeline with the
parsed window argument. -/
inductive FrontendResult where
  | exit (code : Nat) (out : List String) (err : List String)
  | proceed (window_arg : Option String)
  deriving DecidableEq, Repr

/-- The usage text after printf substitutes the command name for the
single percent-s; the trailing HELP_SEE_WINDOW_STACK block is defined
outside src/ and is kept abstract as the hs parameter.
Modelled from the spec: HELP_SEE_WINDOW_STACK is "a fixed pointer to
window-stack help documentation". -/
def usage_tail (hs : String) : String :=
  " [--window windowid]--window <windowid>    - specify a window to send keys to\n-h, --help             - show this help output\n" ++ hs

/-- The rendered usage text: Usage: then the command name then the fixed
tail. -/
def usage_text (hs cmd : String) : String :=
  "Usage: " ++ cmd ++ usage_tail hs

/-- The getopt loop of cmd_fakemap (src lines 55-70): the window option
stores its argument and continues; the help option prints the usage text
to stdout and returns EXIT_SUCCESS; any unrecognized option prints the
usage text to stderr and returns EXIT_FAILURE; when the options are
exhausted control proceeds to the pipeline. -/
def frontend (cmd hs : String) :
    List OptTok → Option String → FrontendResult
  | [], w => FrontendResult.proceed w
  | OptTok.window a :: rest, _ => frontend cmd hs rest (some a)
  | OptTok.help :: _, _ =>
    FrontendResult.exit 0 [usage_text hs cmd] []
  | OptTok.unknown _ :: _, _ =>
    FrontendResult.exit 1 [] [usage_text hs cmd]

/-- Children spawned for a given invocation: none when the front end
returns early, the startup pipeline children when it proceeds. -/
def cmd_children (cmd hs : String) (toks : List OptTok) :
    List (String × List String) :=
  match frontend cmd hs toks none with
  | FrontendResult.proceed _ => startup_spawns
  | FrontendResult.exit _ _ _ => []

/-! Helper lemmas shared by the claim theorems. -/

/-- Bitwise absorption: or-ing a mask in and then and-ing with the same
mask yields the mask. -/
theorem lor_and_absorb (m c : Nat) : (m ||| c) &&& c = c := by
  apply Nat.eq_of_testBit_eq
  intro i
  simp only [Nat.testBit_land, Nat.testBit_lor]
  cases c.testBit i <;> simp

/-- Or-ing the same mask twice is the same as or-ing it once. -/
theorem lor_lor_self (m c : Nat) : (m ||| c) ||| c = m ||| c := by
  rw [Nat.lor_assoc, Nat.or_self]

/-- Pointwise description of one updateIndex step, with the dead inner
control-character check already collapsed. -/
theorem updateIndex_apply (idx : Nat → Option charcodemap) (m : charcodemap)
    (k : Nat) :
    updateIndex idx m k =
      if iscntrl m.key then idx k
      else
        match idx m.key with
        | some curmap =>
          if curmap.symbol < m.symbol then idx k
          else if curmap.modmask < m.modmask then idx k
          else if k = m.key then some m else idx k
        | none => if k = m.key then some m else idx k := by
  rw [updateIndex]
  by_cases h : iscntrl m.key = true
  · simp [h]
  · simp only [Bool.not_eq_true] at h
    simp only [h, Bool.false_eq_true, if_false]
    cases idx m.key with
    | none => rfl
    | some curmap =>
      by_cases h1 : curmap.symbol < m.symbol
      · simp [h1]
      · by_cases h2 : curmap.modmask < m.modmask
        · simp [h1, h2]
        · simp [h1, h2]

/-- Invariant of the map_by_char fold: when every row has the same key c
and the same modmask m, and the accumulator already holds an entry for c
with that key and modmask, the final entry for c has a symbol no larger
than the accumulated entry and no larger than any symbol in the rows. -/
theorem map_by_char_foldl_min (c m : Nat) (hc : iscntrl c = false) :
    ∀ (rows : List charcodemap) (idx : Nat → Option charcodemap)
      (cur : charcodemap),
      idx c = some cur → cur.key = c → cur.modmask = m →
      (∀ r ∈ rows, r.key = c ∧ r.modmask = m) →
      ∃ res, (rows.foldl updateIndex idx) c = some res ∧ res.key = c ∧
        res.modmask = m ∧ res.symbol ≤ cur.symbol ∧
        ∀ r ∈ rows, res.symbol ≤ r.symbol := by
  intro rows
  induction rows with
  | nil =>
    intro idx cur h1 h2 h3 _
    exact ⟨cur, h1, h2, h3, le_refl _, by simp⟩
  | cons r rest ih =>
    intro idx cur h1 h2 h3 hall
    have hrkey : r.key = c := (hall r (List.mem_cons_self r rest)).1
    have hrmod : r.modmask = m := (hall r (List.mem_cons_self r rest)).2
    have hrest : ∀ x ∈ rest, x.key = c ∧ x.modmask = m :=
      fun x hx => hall x (List.mem_cons_of_mem _ hx)
    rw [List.foldl_cons]
    have hrc : iscntrl r.key = false := by rw [hrkey]; exact hc
    have hidxr : idx r.key = some cur := by rw [hrkey]; exact h1
    by_cases hs : cur.symbol < r.symbol
    · have hupd : updateIndex idx r = idx := by
        rw [updateIndex, hrc, hidxr]
        simp [hs]
      rw [hupd]
      obtain ⟨res, e1, e2, e3, e4, e5⟩ := ih idx cur h1 h2 h3 hrest
      refine ⟨res, e1, e2, e3, e4, ?_⟩
      intro x hx
      rcases List.mem_cons.mp hx with rfl | hx
      · exact le_trans e4 (le_of_lt hs)
      · exact e5 x hx
    · have hmm : ¬ cur.modmask < r.modmask := by rw [h3, hrmod]; exact lt_irrefl m
      have hupd : updateIndex idx r = fun k => if k = r.key then some r else idx k := by
        rw [updateIndex, hrc, hidxr]
        simp [hs, hmm, hrc]
      rw [hupd]
      have hat : (fun k => if k = r.key then some r else idx k) c = some r := by
        simp [hrkey]
      obtain ⟨res, e1, e2, e3, e4, e5⟩ :=
        ih (fun k => if k = r.key then some r else idx k) r hat hrkey hrmod hrest
      refine ⟨res, e1, e2, e3, le_trans e4 (not_lt.mp hs), ?_⟩
      intro x hx
      rcases List.mem_cons.mp hx with rfl | hx
      · exact e4
      · exact e5 x hx

/-! Claim theorems. -/

/-- Claim C1, counterexample: with original row
(key 233, code 0x12, symbol 0xe9, group 0, modmask Shift) and preferred
new-layout binding (code 0x34, modmask 0) for the same character, the
grab set is the original pair (0x12, Shift) with its Control variant
(0x12, Shift or Control); the pair (0x34, 0) built from the preferred
binding, which the claim says is grabbed, is not in the set. -/
theorem C1_counterexample :
    grab_pairs [⟨233, 18, 233, 0, 1⟩] (map_by_char [⟨233, 52, 233, 0, 0⟩]) =
      [(18, 1), (18, 5)] ∧
    ¬ ((52, 0) ∈
      grab_pairs [⟨233, 18, 233, 0, 1⟩] (map_by_char [⟨233, 52, 233, 0, 0⟩])) := by
  decide

/-- Claim C1, amended: for every row of the original table whose
character has a preferred binding differing in code or modmask, the
grab set contains the ORIGINAL rows pair (row.code, row.modmask) and the
same pair with the Control bit added (not the preferred bindings
pair). -/
theorem C1_amended (orig : List charcodemap) (idx : Nat → Option charcodemap)
    (chr map : charcodemap) (hmem : chr ∈ orig) (hidx : idx chr.key = some map)
    (hdiff : ¬ (map.code = chr.code ∧ map.modmask = chr.modmask)) :
    (chr.code, chr.modmask) ∈ grab_pairs orig idx ∧
    (chr.code, chr.modmask ||| ControlMask) ∈ grab_pairs orig idx := by
  constructor
  · rw [grab_pairs, List.mem_flatMap]
    refine ⟨chr, hmem, ?_⟩
    rw [hidx]
    simp [hdiff]
  · rw [grab_pairs, List.mem_flatMap]
    refine ⟨chr, hmem, ?_⟩
    rw [hidx]
    simp [hdiff]

/-- Witness for C1_amended at the concrete tables of the
counterexample. -/
theorem C1_amended_witness :
    (18, 1) ∈ grab_pairs [⟨233, 18, 233, 0, 1⟩]
        (map_by_char [⟨233, 52, 233, 0, 0⟩]) ∧
    (18, 1 ||| ControlMask) ∈ grab_pairs [⟨233, 18, 233, 0, 1⟩]
        (map_by_char [⟨233, 52, 233, 0, 0⟩]) :=
  C1_amended [⟨233, 18, 233, 0, 1⟩] (map_by_char [⟨233, 52, 233, 0, 0⟩])
    ⟨233, 18, 233, 0, 1⟩ ⟨233, 52, 233, 0, 0⟩
    (by decide) (by decide) (by decide)

/-- Claim C2, counterexample: with the original table holding exactly
the row (key 233, code 0x12, symbol 0xe9, group 0, modmask Shift) and
the preferred binding for that character being (code 0x34, modmask 0),
an observed key press with keycode 0x34 and state 0 matches no original
row, so the loop produces NO actions at all, not the claimed Shift
release followed by a press of keycode 0x12 with state Shift. -/
theorem C2_counterexample :
    handle_key_event ⟨50, 108, 777⟩ (map_by_char [⟨233, 52, 233, 0, 0⟩])
        [⟨233, 18, 233, 0, 1⟩] ⟨EvType.press, 52, 0, false⟩ = [] ∧
    handle_key_event ⟨50, 108, 777⟩ (map_by_char [⟨233, 52, 233, 0, 0⟩])
        [⟨233, 18, 233, 0, 1⟩] ⟨EvType.press, 52, 0, false⟩ ≠
      [Action.sendEvent ⟨EvType.release, 50, 0, 777⟩,
       Action.sendEvent ⟨EvType.press, 18, 1, 777⟩] := by
  decide

/-- Claim C2, amended: the translation runs the other way around: the
observed key press with keycode 0x12 and state Shift (the original
binding) produces exactly a synthesized Shift key release directed at
the focused window followed by a synthesized key press with keycode
0x34 and state 0 (the preferred new-layout binding) at the same window,
for every Shift keycode, level3 keycode and focused window. -/
theorem C2_amended (sk l3 fw : Nat) :
    handle_key_event ⟨sk, l3, fw⟩ (map_by_char [⟨233, 52, 233, 0, 0⟩])
        [⟨233, 18, 233, 0, 1⟩] ⟨EvType.press, 18, 1, false⟩ =
      [Action.sendEvent ⟨EvType.release, sk, 0, fw⟩,
       Action.sendEvent ⟨EvType.press, 52, 0, fw⟩] := rfl

/-- Claim C3, counterexample: three rows for printable character 97 with
symbols 30, 20, 10 (so S1 = 10 < S2 = 20 < S3 = 30) and modifier masks
0, 1, 2, presented in this order, make the resolver keep the row with
symbol 30, not the row with the least symbol 10: the fewer-modifiers
rule fires even though the later rows have strictly smaller symbols. -/
theorem C3_counterexample :
    ((map_by_char [⟨97, 1, 30, 0, 0⟩, ⟨97, 2, 20, 0, 1⟩, ⟨97, 3, 10, 0, 2⟩]) 97).map
        charcodemap.symbol = some 30 ∧
    ¬ (((map_by_char [⟨97, 1, 30, 0, 0⟩, ⟨97, 2, 20, 0, 1⟩, ⟨97, 3, 10, 0, 2⟩]) 97).map
        charcodemap.symbol = some 10) := by
  decide

/-- Claim C3, amended: the resolver is order-independent only in
restricted cases.  First part: when every row for a printable character
carries the same modifier mask, the selected row has the least symbol,
whatever the input order.  Second part: for two rows with equal symbols
and masks M1 less than M2, the row with M1 is selected in either input
order.  (In general the resolver is order-dependent, see the
counterexample.) -/
theorem C3_amended :
    (∀ (c m : Nat) (r0 : charcodemap) (rows : List charcodemap),
       iscntrl c = false →
       (∀ r ∈ r0 :: rows, r.key = c ∧ r.modmask = m) →
       ∃ res, map_by_char (r0 :: rows) c = some res ∧
         ∀ r ∈ r0 :: rows, res.symbol ≤ r.symbol) ∧
    (∀ r1 r2 : charcodemap, iscntrl r1.key = false →
       r2.key = r1.key → r2.symbol = r1.symbol → r1.modmask < r2.modmask →
       map_by_char [r1, r2] r1.key = some r1 ∧
       map_by_char [r2, r1] r1.key = some r1) := by
  constructor
  · intro c m r0 rows hc hall
    have h0key : r0.key = c := (hall r0 (List.mem_cons_self r0 rows)).1
    have h0mod : r0.modmask = m := (hall r0 (List.mem_cons_self r0 rows)).2
    have hrest : ∀ x ∈ rows, x.key = c ∧ x.modmask = m :=
      fun x hx => hall x (List.mem_cons_of_mem _ hx)
    have h0c : iscntrl r0.key = false := by rw [h0key]; exact hc
    have hat : (updateIndex (fun _ => none) r0) c = some r0 := by
      simp [updateIndex_apply, h0c, h0key, hc]
    rw [map_by_char, List.foldl_cons]
    obtain ⟨res, e1, _, _, e4, e5⟩ :=
      map_by_char_foldl_min c m hc rows
        (updateIndex (fun _ => none) r0) r0 hat h0key h0mod hrest
    refine ⟨res, e1, ?_⟩
    intro x hx
    rcases List.mem_cons.mp hx with rfl | hx
    · exact e4
    · exact e5 x hx
  · intro r1 r2 hc h2key h2sym hlt
    have h2c : iscntrl r2.key = false := by rw [h2key]; exact hc
    constructor
    · have hns : ¬ r1.symbol < r2.symbol := by rw [h2sym]; exact lt_irrefl _
      simp [map_by_char, List.foldl_cons, List.foldl_nil, updateIndex_apply,
        hc, h2c, h2key, hns, hlt]
    · have hns : ¬ r2.symbol < r1.symbol := by rw [h2sym]; exact lt_irrefl _
      have hnm : ¬ r2.modmask < r1.modmask := Nat.not_lt.mpr (le_of_lt hlt)
      simp [map_by_char, List.foldl_cons, List.foldl_nil, updateIndex_apply,
        hc, h2c, h2key, hns, hnm]

/-- Witness for C3_amended: the equal-mask part at rows with symbols
30, 20, 10 and mask 0, and the equal-symbol part at masks 0 and 3. -/
theorem C3_amended_witness :
    (∃ res, map_by_char [⟨97, 1, 30, 0, 0⟩, ⟨97, 2, 20, 0, 0⟩, ⟨97, 3, 10, 0, 0⟩] 97 =
        some res ∧
      ∀ r ∈ [(⟨97, 1, 30, 0, 0⟩ : charcodemap), ⟨97, 2, 20, 0, 0⟩, ⟨97, 3, 10, 0, 0⟩],
        res.symbol ≤ r.symbol) ∧
    (map_by_char [⟨97, 1, 5, 0, 0⟩, ⟨97, 2, 5, 0, 3⟩] 97 = some ⟨97, 1, 5, 0, 0⟩ ∧
     map_by_char [⟨97, 2, 5, 0, 3⟩, ⟨97, 1, 5, 0, 0⟩] 97 = some ⟨97, 1, 5, 0, 0⟩) :=
  ⟨C3_amended.1 97 0 ⟨97, 1, 30, 0, 0⟩ [⟨97, 2, 20, 0, 0⟩, ⟨97, 3, 10, 0, 0⟩]
     (by decide) (by decide),
   C3_amended.2 ⟨97, 1, 5, 0, 0⟩ ⟨97, 2, 5, 0, 3⟩
     (by decide) (by decide) (by decide) (by decide)⟩

/-- Claim C4, counterexample: in the startup trace the first keymap
refresh does NOT happen before the dead-key-disabling tool invocation:
the nodeadkeys setxkbmap child is spawned strictly before the first
refresh. -/
theorem C4_counterexample :
    ¬ (startup_trace.findIdx (fun s => s == Step.refreshKeymap) <
       startup_trace.findIdx (fun s =>
         s == Step.spawnTool "setxkbmap" ["setxkbmap", "-variant", "nodeadkeys"])) := by
  decide

/-- Claim C4, amended: the keymap refresh happens exactly twice before
the event loop starts, the first refresh comes after the
dead-key-disabling tool invocation, the original charcodes are captured
right after the first refresh and before the us-layout installation,
and the event loop is the final step of the trace. -/
theorem C4_amended :
    (startup_trace.takeWhile (fun s => s != Step.eventLoop)).countP
        (fun s => s == Step.refreshKeymap) = 2 ∧
    startup_trace.findIdx (fun s =>
        s == Step.spawnTool "setxkbmap" ["setxkbmap", "-variant", "nodeadkeys"]) <
      startup_trace.findIdx (fun s => s == Step.refreshKeymap) ∧
    startup_trace.findIdx (fun s => s == Step.refreshKeymap) <
      startup_trace.findIdx (fun s => s == Step.captureOrigCharcodes) ∧
    startup_trace.findIdx (fun s => s == Step.captureOrigCharcodes) <
      startup_trace.findIdx (fun s =>
        s == Step.spawnTool "setxkbmap" ["-layout", "us", "-variant", "basic"]) ∧
    startup_trace.findIdx (fun s => s == Step.eventLoop) =
      startup_trace.length - 1 := by
  decide

/-- Claim C5, counterexample: an observed press of keycode 5 with state
0 matches two original rows; the first (character 200) has no preferred
binding and prints the unknown-key diagnostic, but scanning continues
and the second matching row (character 233) IS translated, so a
synthesized key event is sent for that same observed event. -/
theorem C5_counterexample :
    handle_key_event ⟨50, 108, 777⟩ (map_by_char [⟨233, 9, 233, 0, 0⟩])
        [⟨200, 5, 999, 0, 0⟩, ⟨233, 5, 998, 0, 0⟩] ⟨EvType.press, 5, 0, false⟩ =
      [Action.printUnknown 200,
       Action.sendEvent ⟨EvType.press, 9, 0, 777⟩] ∧
    Action.sendEvent ⟨EvType.press, 9, 0, 777⟩ ∈
      handle_key_event ⟨50, 108, 777⟩ (map_by_char [⟨233, 9, 233, 0, 0⟩])
        [⟨200, 5, 999, 0, 0⟩, ⟨233, 5, 998, 0, 0⟩] ⟨EvType.press, 5, 0, false⟩ := by
  decide

/-- Claim C5, amended: the unknown-key diagnostic is printed and the
matched row dropped, but scanning continues; the whole observed event is
dropped (no synthesized event of any kind) exactly when NO matching row
has a preferred binding, in which case the produced actions are exactly
the unknown-key diagnostics of the matching rows, in table order. -/
theorem C5_amended (env : Env) (idx : Nat → Option charcodemap)
    (orig : List charcodemap) (key : KeyEventIn)
    (hse : key.send_event = false)
    (hall : ∀ chr ∈ orig, matchesEvent key chr = true → idx chr.key = none) :
    handle_key_event env idx orig key =
      (orig.filter (fun chr => matchesEvent key chr)).map
        (fun chr => Action.printUnknown chr.key) := by
  rw [handle_key_event, hse]
  simp only [Bool.false_eq_true, if_false]
  revert hall
  induction orig with
  | nil => intro _; rfl
  | cons chr rest ih =>
    intro hall
    have hrest : ∀ x ∈ rest, matchesEvent key x = true → idx x.key = none :=
      fun x hx => hall x (List.mem_cons_of_mem _ hx)
    by_cases hm : matchesEvent key chr = true
    · have hn : idx chr.key = none := hall chr (List.mem_cons_self _ _) hm
      simp only [translate_event, hm, if_true, hn, List.filter_cons, List.map_cons]
      rw [ih hrest]
    · simp only [translate_event, hm, if_false, List.filter_cons]
      rw [ih hrest]
      simp [hm]

/-- Witness for C5_amended at a single matching unresolvable row. -/
theorem C5_amended_witness :
    handle_key_event ⟨50, 108, 777⟩ (map_by_char []) [⟨200, 5, 999, 0, 0⟩]
        ⟨EvType.press, 5, 0, false⟩ =
      ([(⟨200, 5, 999, 0, 0⟩ : charcodemap)].filter
          (fun chr => matchesEvent ⟨EvType.press, 5, 0, false⟩ chr)).map
        (fun chr => Action.printUnknown chr.key) :=
  C5_amended ⟨50, 108, 777⟩ (map_by_char []) [⟨200, 5, 999, 0, 0⟩]
    ⟨EvType.press, 5, 0, false⟩ (by decide) (by decide)

/-- Claim C6, confirmed: the primary synthesized event is the last
action of a translated row, and whenever the observed state has the
Control bit set, the primary events state has the Control bit set as
well (the bit is or-ed in on top of the target bindings modmask), for
every target binding. -/
theorem C6_control_preserved (env : Env) (map : charcodemap) (key : KeyEventIn)
    (h : key.state &&& ControlMask = ControlMask) :
    (rowActions env map key).getLast? =
      some (Action.sendEvent (primaryEvent env map key)) ∧
    (primaryEvent env map key).state &&& ControlMask = ControlMask := by
  constructor
  · exact List.getLast?_concat _
  · show (map.modmask ||| (key.state &&& PRESERVED_MODS)) &&& ControlMask = ControlMask
    rw [PRESERVED_MODS, h]
    exact lor_and_absorb map.modmask ControlMask

/-- Witness for C6_control_preserved at an observed press with state 5
(Shift and Control held). -/
theorem C6_control_preserved_witness :
    ((5 : Nat) &&& ControlMask = ControlMask) ∧
    (rowActions ⟨50, 108, 777⟩ ⟨233, 52, 233, 0, 0⟩
        ⟨EvType.press, 18, 5, false⟩).getLast? =
      some (Action.sendEvent (primaryEvent ⟨50, 108, 777⟩ ⟨233, 52, 233, 0, 0⟩
        ⟨EvType.press, 18, 5, false⟩)) ∧
    (primaryEvent ⟨50, 108, 777⟩ ⟨233, 52, 233, 0, 0⟩
        ⟨EvType.press, 18, 5, false⟩).state &&& ControlMask = ControlMask :=
  ⟨by decide,
   (C6_control_preserved ⟨50, 108, 777⟩ ⟨233, 52, 233, 0, 0⟩
      ⟨EvType.press, 18, 5, false⟩ (by decide)).1,
   (C6_control_preserved ⟨50, 108, 777⟩ ⟨233, 52, 233, 0, 0⟩
      ⟨EvType.press, 18, 5, false⟩ (by decide)).2⟩

/-- Claim C7, confirmed: the grab set is closed under adding the
Control bit: every requested pair also has its Control-chorded variant
requested. -/
theorem C7_grab_control_closed (orig : List charcodemap)
    (idx : Nat → Option charcodemap) (p : Nat × Nat)
    (h : p ∈ grab_pairs orig idx) :
    (p.1, p.2 ||| ControlMask) ∈ grab_pairs orig idx := by
  rw [grab_pairs, List.mem_flatMap] at h ⊢
  obtain ⟨chr, hchr, hp⟩ := h
  refine ⟨chr, hchr, ?_⟩
  revert hp
  cases hidx : idx chr.key with
  | none =>
    intro hp
    have hp' : p ∈ ([] : List (Nat × Nat)) := hp
    simp at hp'
  | some map =>
    intro hp
    have hp' : p ∈ (if map.code = chr.code ∧ map.modmask = chr.modmask
        then ([] : List (Nat × Nat))
        else [(chr.code, chr.modmask), (chr.code, chr.modmask ||| ControlMask)]) := hp
    show (p.1, p.2 ||| ControlMask) ∈
      (if map.code = chr.code ∧ map.modmask = chr.modmask
        then ([] : List (Nat × Nat))
        else [(chr.code, chr.modmask), (chr.code, chr.modmask ||| ControlMask)])
    by_cases hcnd : map.code = chr.code ∧ map.modmask = chr.modmask
    · rw [if_pos hcnd] at hp'
      simp at hp'
    · rw [if_neg hcnd] at hp' ⊢
      rcases List.mem_cons.mp hp' with rfl | hp2
      · simp
      · rcases List.mem_cons.mp hp2 with rfl | hp3
        · simp [lor_lor_self]
        · simp at hp3

/-- Witness for C7_grab_control_closed at the concrete grab set of the
running example. -/
theorem C7_grab_control_closed_witness :
    (18, 1) ∈ grab_pairs [⟨233, 18, 233, 0, 1⟩]
        (map_by_char [⟨233, 52, 233, 0, 0⟩]) ∧
    ((18, 1).1, (18, 1).2 ||| ControlMask) ∈ grab_pairs [⟨233, 18, 233, 0, 1⟩]
        (map_by_char [⟨233, 52, 233, 0, 0⟩]) :=
  ⟨by decide,
   C7_grab_control_closed [⟨233, 18, 233, 0, 1⟩]
     (map_by_char [⟨233, 52, 233, 0, 0⟩]) (18, 1) (by decide)⟩

/-- Claim C8, confirmed: layout restoration invokes no tool when no
layout was captured, invokes setxkbmap exactly once with the captured
layout identifier when one was, and never spawns more than one child;
the single invocation passes the layout as the only argument after the
arg0 slot. -/
theorem C8_restore :
    restore_layout none = [] ∧
    (∀ l, restore_layout (some l) = [("setxkbmap", ["-layout", l])]) ∧
    (∀ o, (restore_layout o).length ≤ 1) := by
  refine ⟨rfl, fun l => rfl, fun o => ?_⟩
  cases o <;> simp [restore_layout]

/-- Claim C9, confirmed: the help option makes the front end return
success with the usage text (which contains the invoking command name)
on stdout and spawn no children; an unrecognized option makes it return
failure with the usage text on stderr and spawn no children, in
particular never invoking the layout tools. -/
theorem C9_frontend :
    (∀ (cmd hs : String) (rest : List OptTok) (w : Option String),
       frontend cmd hs (OptTok.help :: rest) w =
         FrontendResult.exit 0 [usage_text hs cmd] [] ∧
       cmd_children cmd hs (OptTok.help :: rest) = [] ∧
       ∃ a b, usage_text hs cmd = a ++ cmd ++ b) ∧
    (∀ (cmd hs s : String) (rest : List OptTok) (w : Option String),
       frontend cmd hs (OptTok.unknown s :: rest) w =
         FrontendResult.exit 1 [] [usage_text hs cmd] ∧
       cmd_children cmd hs (OptTok.unknown s :: rest) = []) := by
  refine ⟨fun cmd hs rest w => ⟨rfl, rfl, ?_⟩, fun cmd hs s rest w => ⟨rfl, rfl⟩⟩
  exact ⟨"Usage: ", usage_tail hs, String.append_assoc "Usage: " cmd (usage_tail hs)⟩

/-- Claim C10, confirmed: each observed key event is translated from at
most one row: the produced actions are the unknown-key diagnostics of
the matching unresolvable rows scanned before the first matching row
with a preferred binding, followed by the actions of that single row
(or nothing when no matching row resolves), so scanning stops at the
first resolvable match. -/
theorem C10_single_translation (env : Env) (idx : Nat → Option charcodemap)
    (orig : List charcodemap) (key : KeyEventIn) :
    ∃ cs : List Nat,
      translate_event env idx key orig =
        cs.map Action.printUnknown ++
          (match firstResolvable idx key orig with
           | some map => rowActions env map key
           | none => []) := by
  induction orig with
  | nil => exact ⟨[], rfl⟩
  | cons chr rest ih =>
    by_cases hm : matchesEvent key chr = true
    · cases hidx : idx chr.key with
      | none =>
        obtain ⟨cs, hcs⟩ := ih
        refine ⟨chr.key :: cs, ?_⟩
        simp only [translate_event, firstResolvable, hm, if_true, hidx,
          List.map_cons, List.cons_append, hcs]
      | some map =>
        refine ⟨[], ?_⟩
        simp only [translate_event, firstResolvable, hm, if_true, hidx,
          List.map_nil, List.nil_append]
    · obtain ⟨cs, hcs⟩ := ih
      refine ⟨cs, ?_⟩
      simp only [translate_event, firstResolvable, hm, Bool.false_eq_true,
        if_false, hcs]

end Fakemap
